import Mathlib

/-!
Shallow embedding of `src/test-udf/src/lib.rs`: the `RunningTotal` aggregate
UDF written against the `udf` crate's `BasicUdf` lifecycle contract
(`init` once, `process` per row).

Machine integers: the accumulator is a Rust `i64`; we model its values as
`Int` together with explicit two's-complement wrapping (`wrap64`) at each
addition.  Panics (the `unwrap` calls in the source) are modelled as the
`none` branch of an outer `Option`; the declared fallible result types
(`Result<_, String>`, `Result<_, ProcessError>`) are modelled as `Except`.

Types owned by the `udf` crate (argument model, configuration object,
coercion request) are not under `src/`; they are modelled from the spec
where claims depend on them, as marked in their doc comments.
-/

/-- SQL scalar type tags, mirroring the `udf` crate's `SqlType` as the spec
describes it: a closed set of scalar kinds.  Only `Int` is used by the UDF. -/
inductive SqlType where
  | Int
  | Real
  | Decimal
  | Str
deriving DecidableEq, Repr

/-- Modelled from the spec: the dynamically-typed scalar value of one
argument, "a tagged union over {Integer, Real, Decimal-as-string, String,
Null}" where nullness is representable inside each kind (the mock writes
`Int None` for an integer-typed null).  The `udf` crate's `SqlResult` is
outside `src/`.  `Real` payloads are modelled as rationals; no claim
inspects them. -/
inductive SqlValue where
  | Int (v : Option Int)
  | Real (v : Option Rat)
  | Decimal (v : Option String)
  | Str (v : Option String)
deriving DecidableEq, Repr

/-- Modelled from the spec: the "as-integer" accessor, an "explicit, total
conversion operation that returns an absent/failure indicator rather than
panicking" — `some` exactly on a non-null integer-tagged value. -/
def SqlValue.as_int : SqlValue → Option ℤ
  | SqlValue.Int v => v
  | _ => none

/-- Modelled from the spec: one positional argument —
`(value, declared_name, maybe_null, requested_coercion)`.  The
`requested_coercion` field records a coercion request made during `init`. -/
structure Argument where
  value : SqlValue
  declared_name : Option String
  maybe_null : Bool
  requested_coercion : Option SqlType
deriving DecidableEq, Repr

/-- Modelled from the spec: `set_type_coercion` records the requested target
type on the argument's coercion metadata (a declaration the host honours for
subsequent rows; the core only records it). -/
def Argument.set_type_coercion (a : Argument) (t : SqlType) : Argument :=
  { a with requested_coercion := some t }

/-- Lifecycle phase tag for the phase-scoped configuration object. -/
inductive UdfPhase where
  | Init
  | Process
deriving DecidableEq, Repr

/-- Modelled from the spec: the phase-tagged, opaque configuration object
(`UdfCfg<Init>` / `UdfCfg<Process>` in the source).  Its fields mirror the
mock's settable knobs; `RunningTotal` never reads any of them. -/
structure UdfCfg (phase : UdfPhase) where
  max_len : Nat
  decimals : Nat
  is_const : Bool
deriving DecidableEq, Repr

/-- Modelled from the spec: the opaque per-row processing error type of the
`udf` crate; the UDF never constructs one. -/
inductive ProcessError where
  | mk
deriving DecidableEq, Repr

/-- The host's error-indicator byte, `Option<NonZeroU8>` in the source:
a byte value that is nonzero. -/
def NonZeroU8 : Type := { n : Nat // 0 < n ∧ n < 256 }

/-- Two's-complement wrapping of an unbounded integer into the `i64` range,
i.e. the value of `i64` addition when the mathematical result overflows.
`9223372036854775808 = 2^63`, `18446744073709551616 = 2^64`. -/
def wrap64 (x : Int) : Int :=
  (x + 9223372036854775808) % 18446744073709551616 - 9223372036854775808

/-- `x` is representable as an `i64`. -/
def inI64 (x : Int) : Prop :=
  -9223372036854775808 ≤ x ∧ x ≤ 9223372036854775807

instance (x : Int) : Decidable (inI64 x) := by
  unfold inI64; infer_instance

/-- The accumulator: `struct RunningTotal(i64)` from the source. -/
structure RunningTotal where
  val : Int
deriving DecidableEq, Repr

/-- `RunningTotal::init` from the source: reject any arity other than 1 with
the message `format!("expected 1 argument; got {}", args.len())`, request
integer coercion on position 0, and return the zero accumulator.  The outer
`Option` models the `unwrap` on `args.get(0)` (never hit: it is guarded by
the length check); the returned argument list carries the coercion request
that the source applies by mutation. -/
def RunningTotal.init (_cfg : UdfCfg UdfPhase.Init) (args : List Argument) :
    Option (Except String (RunningTotal × List Argument)) :=
  if args.length ≠ 1 then
    some (Except.error ("expected 1 argument; got " ++ toString args.length))
  else
    match args.get? 0 with
    | none => none
    | some a =>
      some (Except.ok (⟨0⟩, args.set 0 (a.set_type_coercion SqlType.Int)))

/-- `RunningTotal::process` from the source:
`self.0 += args.get(0).unwrap().value().as_int().unwrap_or(0); Ok(self.0)`.
The outer `Option` models the `unwrap` panic on a missing position 0; the
`Except` is the declared `Result<i64, ProcessError>`.  The addition wraps as
`i64` addition does. -/
def RunningTotal.process (s : RunningTotal) (_cfg : UdfCfg UdfPhase.Process)
    (args : List Argument) (_error : Option NonZeroU8) :
    Option (Except ProcessError Int × RunningTotal) :=
  match args.get? 0 with
  | none => none
  | some a =>
    let t := wrap64 (s.val + (a.value.as_int.getD 0))
    some (Except.ok t, ⟨t⟩)

/-- Drive one `process` call per row, as the host does: each row's result is
emitted in order; a panic or a `ProcessError` aborts the execution (`none`). -/
def runRows (cfg : UdfCfg UdfPhase.Process) :
    RunningTotal → List (List Argument) → Option (List Int)
  | _, [] => some []
  | s, row :: rest =>
    match RunningTotal.process s cfg row none with
    | none => none
    | some (Except.error _, _) => none
    | some (Except.ok v, s2) => Option.map (fun l => v :: l) (runRows cfg s2 rest)

/-- A single-position argument row holding an integer-typed value (possibly
null), shaped like the mock harness rows `mock_args![(v, "", false)]` and
`mock_args![(Int None, "", false)]`. -/
def intRow (v : Option Int) : List Argument :=
  [{ value := SqlValue.Int v, declared_name := some "", maybe_null := false,
     requested_coercion := none }]

/-- A default process-phase configuration (the UDF ignores it). -/
def defaultProcessCfg : UdfCfg UdfPhase.Process :=
  { max_len := 0, decimals := 0, is_const := false }

/-- A default init-phase configuration (the UDF ignores it). -/
def defaultInitCfg : UdfCfg UdfPhase.Init :=
  { max_len := 0, decimals := 0, is_const := false }

/-- Run the UDF over a sequence of integer-typed inputs, one per row. -/
def runInts (s : RunningTotal) (vs : List (Option Int)) : Option (List Int) :=
  runRows defaultProcessCfg s (List.map intRow vs)

/-- One whole execution as the host drives it: `init` once, then, only on
success, one `process` call per row. -/
def executeQuery (icfg : UdfCfg UdfPhase.Init) (pcfg : UdfCfg UdfPhase.Process)
    (initArgs : List Argument) (rows : List (List Argument)) :
    Option (Except String (Option (List Int))) :=
  match RunningTotal.init icfg initArgs with
  | none => none
  | some (Except.error e) => some (Except.error e)
  | some (Except.ok (s, _)) => some (Except.ok (runRows pcfg s rows))

/-- Exact (unbounded) running prefix sums of a list, starting from `s`. -/
def partialSums (s : Int) : List Int → List Int
  | [] => []
  | x :: xs => (s + x) :: partialSums (s + x) xs

/-- Every running prefix sum of `xs` starting from `s` stays in `i64` range. -/
def sumsInRange (s : Int) : List Int → Prop
  | [] => True
  | x :: xs => inI64 (s + x) ∧ sumsInRange (s + x) xs

instance sumsInRange.dec : (s : Int) → (xs : List Int) → Decidable (sumsInRange s xs)
  | _, [] => Decidable.isTrue trivial
  | s, x :: xs =>
    have : Decidable (sumsInRange (s + x) xs) := sumsInRange.dec (s + x) xs
    inferInstanceAs (Decidable (inI64 (s + x) ∧ sumsInRange (s + x) xs))

/- ### Basic lemmas -/

theorem wrap64_eq_of_inI64 {x : Int} (h : inI64 x) : wrap64 x = x := by
  unfold wrap64
  unfold inI64 at h
  omega

theorem wrap64_inI64 (x : Int) : inI64 (wrap64 x) := by
  unfold wrap64 inI64
  constructor <;> omega

theorem process_cons (s : RunningTotal) (cfg : UdfCfg UdfPhase.Process)
    (a : Argument) (rest : List Argument) (e : Option NonZeroU8) :
    RunningTotal.process s cfg (a :: rest) e =
      some (Except.ok (wrap64 (s.val + (a.value.as_int.getD 0))),
            ⟨wrap64 (s.val + (a.value.as_int.getD 0))⟩) := rfl

theorem process_intRow (s : RunningTotal) (cfg : UdfCfg UdfPhase.Process)
    (v : Option Int) (e : Option NonZeroU8) :
    RunningTotal.process s cfg (intRow v) e =
      some (Except.ok (wrap64 (s.val + v.getD 0)), ⟨wrap64 (s.val + v.getD 0)⟩) := rfl

theorem runInts_eq_partialSums (xs : List Int) : ∀ s : Int, inI64 s →
    sumsInRange s xs → runInts ⟨s⟩ (List.map some xs) = some (partialSums s xs) := by
  induction xs with
  | nil => intro s _ _; rfl
  | cons x xs ih =>
    intro s _ hσ
    obtain ⟨hx, hrest⟩ := hσ
    have hw : wrap64 (s + x) = s + x := wrap64_eq_of_inI64 hx
    simp only [runInts, List.map, runRows, process_intRow, Option.getD, hw] at *
    rw [ih (s + x) hx hrest]
    rfl

/- ### Claims -/

/-- C1 counterexample: the inputs `9223372036854775807` (= i64::MAX) and `1`
are valid i64 values, yet the second output is `-9223372036854775808`
(i64 wraparound), not the exact prefix sum `9223372036854775808`, so the
unqualified "outputs equal the running prefix sums" fails on the code. -/
theorem spec_C1_counterexample :
    runInts ⟨0⟩ [some 9223372036854775807, some 1] =
      some [9223372036854775807, -9223372036854775808] ∧
    partialSums 0 [9223372036854775807, 1] =
      [9223372036854775807, 9223372036854775808] ∧
    runInts ⟨0⟩ [some 9223372036854775807, some 1] ≠
      some (partialSums 0 [9223372036854775807, 1]) := by
  refine ⟨by decide, by decide, by decide⟩

/-- C1 (amended): after a successful init with initial state 0, for every
sequence of non-null integer inputs all of whose running prefix sums stay in
the i64 range, the sequence of `process` outputs equals the running prefix
sums; in particular `[10, 20, -4, 100, -50, 0]` produces
`[10, 30, 26, 126, 76, 76]`. -/
theorem spec_C1 :
    (∀ xs : List Int, sumsInRange 0 xs →
      runInts ⟨0⟩ (List.map some xs) = some (partialSums 0 xs)) ∧
    runInts ⟨0⟩ [some 10, some 20, some (-4), some 100, some (-50), some 0] =
      some [10, 30, 26, 126, 76, 76] := by
  constructor
  · intro xs h
    exact runInts_eq_partialSums xs 0 (by decide) h
  · decide

/-- C1 witness: the amended theorem applied to the concrete input sequence
`[10, 20, -4, 100, -50, 0]`, whose prefix sums all fit in i64. -/
theorem spec_C1_witness :
    sumsInRange 0 [10, 20, -4, 100, -50, 0] ∧
    runInts ⟨0⟩ (List.map some [10, 20, -4, 100, -50, 0]) =
      some (partialSums 0 [10, 20, -4, 100, -50, 0]) :=
  ⟨by decide, spec_C1.1 [10, 20, -4, 100, -50, 0] (by decide)⟩

/-- C2: for every argument list whose length is not 1, `init` returns the
error `"expected 1 argument; got {n}"`, whose text contains both the
expected count "1" and the actual count, and a whole execution aborts with
that same error no matter what rows would have followed — no `process` call
contributes to the result. -/
theorem spec_C2 (icfg : UdfCfg UdfPhase.Init) (args : List Argument)
    (h : args.length ≠ 1) :
    RunningTotal.init icfg args =
      some (Except.error ("expected 1 argument; got " ++ toString args.length)) ∧
    (∃ l r : List Char,
      ("expected 1 argument; got " ++ toString args.length).data =
        l ++ "1".data ++ r) ∧
    (∃ l r : List Char,
      ("expected 1 argument; got " ++ toString args.length).data =
        l ++ (toString args.length).data ++ r) ∧
    ∀ (pcfg : UdfCfg UdfPhase.Process) (rows : List (List Argument)),
      executeQuery icfg pcfg args rows =
        some (Except.error ("expected 1 argument; got " ++ toString args.length)) := by
  have hinit : RunningTotal.init icfg args =
      some (Except.error ("expected 1 argument; got " ++ toString args.length)) := by
    unfold RunningTotal.init
    rw [if_pos h]
  have hconc : "expected 1 argument; got ".data =
      "expected ".data ++ "1".data ++ " argument; got ".data := rfl
  refine ⟨hinit, ?_, ?_, ?_⟩
  · refine ⟨"expected ".data,
      " argument; got ".data ++ (toString args.length).data, ?_⟩
    rw [String.data_append, hconc]
    simp [List.append_assoc]
  · refine ⟨"expected 1 argument; got ".data, [], ?_⟩
    rw [String.data_append, List.append_nil]
  · intro pcfg rows
    unfold executeQuery
    rw [hinit]

/-- C2 witness: with zero arguments, `init` fails with
`"expected 1 argument; got 0"` and the whole execution aborts with that
message even when a row is available. -/
theorem spec_C2_witness :
    (([] : List Argument).length ≠ 1) ∧
    RunningTotal.init defaultInitCfg [] =
      some (Except.error "expected 1 argument; got 0") ∧
    executeQuery defaultInitCfg defaultProcessCfg [] [intRow (some 5)] =
      some (Except.error "expected 1 argument; got 0") := by
  have h := spec_C2 defaultInitCfg [] (by decide)
  exact ⟨by decide, h.1, h.2.2.2 defaultProcessCfg [intRow (some 5)]⟩

/-- C3: a null-valued row contributes exactly 0 — `process` on a null row
returns the running total unchanged (for any accumulator value in i64
range, which every reachable accumulator is) — and the concrete sequence
`[null, 10, null, -20]` produces outputs `[0, 10, 10, -10]`. -/
theorem spec_C3 :
    (∀ s : Int, inI64 s →
      ∀ (cfg : UdfCfg UdfPhase.Process) (e : Option NonZeroU8),
        RunningTotal.process ⟨s⟩ cfg (intRow none) e =
          some (Except.ok s, ⟨s⟩)) ∧
    runInts ⟨0⟩ [none, some 10, none, some (-20)] = some [0, 10, 10, -10] := by
  constructor
  · intro s hs cfg e
    rw [process_intRow]
    simp [wrap64_eq_of_inI64 hs]
  · decide

/-- C3 witness: the null-row part of the theorem applied at the concrete
in-range accumulator value 7. -/
theorem spec_C3_witness :
    inI64 7 ∧
    RunningTotal.process ⟨7⟩ defaultProcessCfg (intRow none) none =
      some (Except.ok 7, ⟨7⟩) :=
  ⟨by decide, spec_C3.1 7 (by decide) defaultProcessCfg none⟩

/-- C4: for every single-argument invocation, `init` succeeds and the
accumulator it returns is the declared initial state `RunningTotal(0)`. -/
theorem spec_C4 (icfg : UdfCfg UdfPhase.Init) (args : List Argument)
    (h : args.length = 1) :
    ∃ args2 : List Argument,
      RunningTotal.init icfg args = some (Except.ok (⟨0⟩, args2)) := by
  obtain ⟨a, rfl⟩ := List.length_eq_one.mp h
  exact ⟨_, rfl⟩

/-- C4 witness: `init` on the concrete one-argument list `intRow (some 3)`
returns the zero accumulator. -/
theorem spec_C4_witness :
    (intRow (some 3)).length = 1 ∧
    ∃ args2 : List Argument,
      RunningTotal.init defaultInitCfg (intRow (some 3)) =
        some (Except.ok (⟨0⟩, args2)) :=
  ⟨by decide, spec_C4 defaultInitCfg (intRow (some 3)) (by decide)⟩

/-- C5: when every row has the same single-position shape declared at init
time, any number of `process` calls (zero or more) succeeds — the `unwrap`
of `args.get(0)` never hits its panic branch, so the whole run produces a
value. -/
theorem spec_C5 (s : RunningTotal) (cfg : UdfCfg UdfPhase.Process)
    (rows : List (List Argument)) (h : ∀ r ∈ rows, r.length = 1) :
    (runRows cfg s rows).isSome := by
  induction rows generalizing s with
  | nil => rfl
  | cons row rest ih =>
    obtain ⟨a, rfl⟩ := List.length_eq_one.mp (h row (List.mem_cons_self row rest))
    rw [runRows, process_cons]
    simpa using ih ⟨wrap64 (s.val + (a.value.as_int.getD 0))⟩
      (fun r hr => h r (List.mem_cons_of_mem _ hr))

/-- C5 witness: a concrete two-row run (an integer row and a null row, both
single-position) completes without panicking. -/
theorem spec_C5_witness :
    (∀ r ∈ [intRow (some 1), intRow none], r.length = 1) ∧
    (runRows defaultProcessCfg ⟨0⟩ [intRow (some 1), intRow none]).isSome := by
  refine ⟨by decide, spec_C5 ⟨0⟩ defaultProcessCfg _ (by decide)⟩

/-- C6: requesting the same type coercion twice on an argument is
idempotent — the coercion metadata after the second call equals the
metadata after the first. -/
theorem spec_C6 (a : Argument) (t : SqlType) :
    (a.set_type_coercion t).set_type_coercion t = a.set_type_coercion t := rfl

/-- C7: `process` is a pure, deterministic function of the accumulator and
the argument list — its result (returned value and successor state) does
not depend on the configuration object or the error-indicator flag. -/
theorem spec_C7 (s : RunningTotal) (c1 c2 : UdfCfg UdfPhase.Process)
    (args : List Argument) (e1 e2 : Option NonZeroU8) :
    RunningTotal.process s c1 args e1 = RunningTotal.process s c2 args e2 := rfl

/-- C8: for every accumulator and every argument list with at least one
entry, `process` returns `Ok` — the `ProcessError` branch of its result
type is unreachable. -/
theorem spec_C8 (s : RunningTotal) (cfg : UdfCfg UdfPhase.Process)
    (args : List Argument) (e : Option NonZeroU8) (h : 1 ≤ args.length) :
    ∃ (v : Int) (s2 : RunningTotal),
      RunningTotal.process s cfg args e = some (Except.ok v, s2) := by
  match args, h with
  | a :: rest, _ => exact ⟨_, _, process_cons s cfg a rest e⟩

/-- C8 witness: a concrete `process` call on a non-integer-typed (string)
argument still returns `Ok`. -/
theorem spec_C8_witness :
    1 ≤ ([{ value := SqlValue.Str (some "x"), declared_name := none,
            maybe_null := true, requested_coercion := none }] :
          List Argument).length ∧
    ∃ (v : Int) (s2 : RunningTotal),
      RunningTotal.process ⟨5⟩ defaultProcessCfg
        [{ value := SqlValue.Str (some "x"), declared_name := none,
           maybe_null := true, requested_coercion := none }] none =
        some (Except.ok v, s2) :=
  ⟨by decide, spec_C8 ⟨5⟩ defaultProcessCfg _ none (by decide)⟩

/-- C9: `init` validates only arity — on any argument list of length
exactly 1 it returns the zero accumulator, whatever the argument's value,
type tag, nullness, declared name, or nullability flag, and records the
integer coercion request on position 0. -/
theorem spec_C9 (icfg : UdfCfg UdfPhase.Init) (v : SqlValue)
    (nm : Option String) (mn : Bool) (co : Option SqlType) :
    RunningTotal.init icfg [⟨v, nm, mn, co⟩] =
      some (Except.ok (⟨0⟩, [⟨v, nm, mn, some SqlType.Int⟩])) := rfl

/-- C10: the running total is accumulated with i64 two's-complement
wrapping: each `process` output is the wrapped sum of state and input; the
outputs equal the exact prefix sums whenever every prefix sum stays in i64
range; and on `[i64::MAX, 1]` the output differs from the exact prefix
sums. -/
theorem spec_C10 :
    (∀ (s x : Int) (cfg : UdfCfg UdfPhase.Process) (e : Option NonZeroU8),
      RunningTotal.process ⟨s⟩ cfg (intRow (some x)) e =
        some (Except.ok (wrap64 (s + x)), ⟨wrap64 (s + x)⟩)) ∧
    (∀ (s : Int) (xs : List Int), inI64 s → sumsInRange s xs →
      runInts ⟨s⟩ (List.map some xs) = some (partialSums s xs)) ∧
    runInts ⟨0⟩ [some 9223372036854775807, some 1] ≠
      some (partialSums 0 [9223372036854775807, 1]) := by
  refine ⟨fun s x cfg e => process_intRow ⟨s⟩ cfg (some x) e,
          fun s xs hs h => runInts_eq_partialSums xs s hs h, by decide⟩

/-- C10 witness: the in-range part of the theorem applied at state 0 and the
one-element input list `[1]`. -/
theorem spec_C10_witness :
    inI64 0 ∧ sumsInRange 0 [1] ∧
    runInts ⟨0⟩ (List.map some [1]) = some (partialSums 0 [1]) :=
  ⟨by decide, by decide, spec_C10.2.1 0 [1] (by decide) (by decide)⟩
